import Mathlib

/-!
Shallow embedding of the tiered data access layer of PowerSimData
(`powersimdata/data_access/data_access.py`).

Filesystems are modelled as finite maps (association lists) from
slash-separated paths to file contents, plus a set of created directories.
A `MultiFS` (the "Priority Store") is a list of named backends in
descending priority order with one designated writable member.  External
library primitives (`fs.copy.copy_file`, `fs.move.move_file`,
`fs.base.FS.openbin`, ...) are modelled as atomic state transitions, which
matches their synchronous, call-scoped contract.

Content hashes are modelled symbolically: a digest value records both the
algorithm and the hashed content (an idealisation of collision
resistance), so that digests produced by different algorithms, or the
`sha1sum` command-line output which also embeds the file path, are never
equal to each other.
-/

namespace PowerSimData

/-- Paths and file contents are strings. -/
abbrev Content := String

/-- Lookup in an association list keyed by strings (model of a finite map). -/
def alistGet {β : Type} : List (String × β) → String → Option β
  | [], _ => none
  | (k, v) :: rest, key => if k = key then some v else alistGet rest key

/-- Insert-or-overwrite in an association list keyed by strings. -/
def alistSet {β : Type} : List (String × β) → String → β → List (String × β)
  | [], key, v => [(key, v)]
  | (k, w) :: rest, key, v =>
      if k = key then (key, v) :: rest else (k, w) :: alistSet rest key v

/-- Deletion in an association list keyed by strings. -/
def alistDel {β : Type} : List (String × β) → String → List (String × β)
  | [], _ => []
  | (k, w) :: rest, key =>
      if k = key then alistDel rest key else (k, w) :: alistDel rest key

/-- Split a character list at every occurrence of a separator (the model
of `str.split(sep)` for a one-character separator; always non-empty). -/
def splitOnChar (sep : Char) : List Char → List (List Char)
  | [] => [[]]
  | c :: cs =>
    if c = sep then [] :: splitOnChar sep cs
    else
      match splitOnChar sep cs with
      | [] => [[c]]
      | h :: t => (c :: h) :: t

/-- Interleave a separator between character-list segments
(the model of `sep.join(segments)`). -/
def joinChars (sep : Char) : List (List Char) → List Char
  | [] => []
  | [x] => x
  | x :: y :: t => x ++ sep :: joinChars sep (y :: t)

/-- Last component of a slash-separated path (`fs.path.basename`). -/
def basename (p : String) : String :=
  String.mk ((splitOnChar '/' p.toList).getLastD [])

/-- All but the last component of a slash-separated path (`fs.path.dirname`). -/
def dirname (p : String) : String :=
  String.mk (joinChars '/' ((splitOnChar '/' p.toList).dropLast))

/-- The extension used by `DataAccess._callback`:
`basename(filepath).split(".")[-1]`, i.e. the text after the last dot, or
the whole basename when there is no dot. -/
def extOf (p : String) : String :=
  String.mk ((splitOnChar '.' (basename p).toList).getLastD [])

/-- Character-wise lowercasing (the model of `str.lower()`). -/
def lowerString (s : String) : String := String.mk (s.toList.map Char.toLower)

/-- Path join (`fs.path.join` / `posixpath.join` on relative parts). -/
def joinPath (a b : String) : String := if a = "" then b else a ++ "/" ++ b

/-- One backing filesystem: files (path to content) and created directories. -/
structure FS where
  files : List (String × Content)
  dirs : List String
deriving DecidableEq, Repr

/-- The empty filesystem (also the state of a fresh `TempFS`). -/
def FS.empty : FS := ⟨[], []⟩

/-- Content of a file, if present (`fs.readbytes`-style read). -/
def FS.read (f : FS) (p : String) : Option Content := alistGet f.files p

/-- Presence check for a file (`fs.exists`). -/
def FS.existsFile (f : FS) (p : String) : Bool := (f.read p).isSome

/-- Create or overwrite a file with the given content. -/
def FS.writeFile (f : FS) (p : String) (c : Content) : FS :=
  ⟨alistSet f.files p c, f.dirs⟩

/-- Delete a file. -/
def FS.removeFile (f : FS) (p : String) : FS := ⟨alistDel f.files p, f.dirs⟩

/-- `fs.makedirs(d, recreate=True)`: record the directory; never fails. -/
def FS.makedirs (f : FS) (d : String) : FS :=
  ⟨f.files, if d ∈ f.dirs then f.dirs else d :: f.dirs⟩

/-- State of one `DataAccess` instance: all named filesystems (the local
filesystem and the members of the MultiFS), keyed by name. -/
abbrev DAState := List (String × FS)

/-- Wiring of a `DataAccess` variant: the MultiFS member names in
descending priority order (`order`), the name of its writable member
(`writeTo`), the name of `self.local_fs` (`localName`), and the remote
root directory used by `push`'s shell command (`root`).
For `SSHDataAccess`, `order = [ssh_fs, profile_fs, scenario_fs]` with
`writeTo = ssh_fs` and `localName` not a member of `order`; for
`LocalDataAccess`, `local_fs` is itself the writable member of `order`. -/
structure StoreCfg where
  order : List String
  writeTo : String
  localName : String
  root : String
deriving DecidableEq, Repr

/-- The filesystem registered under a name (empty if the name is unknown). -/
def getFS (s : DAState) (n : String) : FS := (alistGet s n).getD FS.empty

/-- Replace the filesystem registered under a name. -/
def setFS (s : DAState) (n : String) (f : FS) : DAState := alistSet s n f

/-- `MultiFS.which`: the name of the highest-priority backend containing
the path, or `none`. -/
def which (cfg : StoreCfg) (s : DAState) (p : String) : Option String :=
  cfg.order.find? (fun n => (getFS s n).existsFile p)

/-- Priority-resolved read through the MultiFS: content from the
highest-priority backend containing the path. -/
def storeRead (cfg : StoreCfg) (s : DAState) (p : String) : Option Content :=
  cfg.order.findSome? (fun n => (getFS s n).read p)

/-- Error taxonomy raised by the data access layer. `notFound` and
`alreadyExists` model the `OSError`s of `_check_file_exists`,
`unknownExtension` the `ValueError` of `_callback`, and `conflict` the
`IOError` raised by `SSHDataAccess.push` when the remote command produced
output on stderr. -/
inductive Err
  | notFound (path : String) (remotes : List String)
  | alreadyExists (path : String) (location : String)
  | unknownExtension (ext : String)
  | conflict
deriving DecidableEq, Repr

/-- `DataAccess._check_file_exists`: consult `self.fs` (the MultiFS) via
`which` and raise when presence does not match expectation. -/
def checkFileExists (cfg : StoreCfg) (s : DAState) (path : String)
    (shouldExist : Bool) : Option Err :=
  match which cfg s path with
  | none => if shouldExist then some (.notFound path cfg.order) else none
  | some loc => if shouldExist then none else some (.alreadyExists path loc)

/-- `DataAccess._callback`: extension-dispatched serialization.  The
serialized bytes are modelled symbolically by tagging the data with the
format that `pickle.dump`, `DataFrame.to_csv` or `scipy.io.savemat`
produced; an unknown extension is a `ValueError`. -/
def callbackSerialize (filepath : String) (data : Content) : Except Err Content :=
  let ext := extOf filepath
  if ext = "pkl" then .ok ("pkl:" ++ data)
  else if ext = "csv" then .ok ("csv:" ++ data)
  else if ext = "mat" then .ok ("mat:" ++ data)
  else .error (.unknownExtension ext)

/-- `DataAccess._write` on one backing filesystem: `makedirs(dirname)`,
then `openbin(filepath, "w")` — which creates (or truncates to) an empty
file — then the serialization callback writes the content; when the
callback raises, the empty file created by `openbin` is left behind. -/
def writeOne (f : FS) (filepath : String) (data : Content) : FS × Option Err :=
  let f1 := f.makedirs (dirname filepath)
  let f2 := f1.writeFile filepath ""
  match callbackSerialize filepath data with
  | .ok c => (f2.writeFile filepath c, none)
  | .error e => (f2, some e)

/-- `DataAccess.write`: create-only existence check against the MultiFS,
then `_write` to the MultiFS (its writable member), then — only when no
error was raised — `_write` again to the local filesystem when
`save_local` is set. -/
def DataAccess.write (cfg : StoreCfg) (s : DAState) (filepath : String)
    (data : Content) (saveLocal : Bool) : DAState × Option Err :=
  match checkFileExists cfg s filepath false with
  | some e => (s, some e)
  | none =>
    match writeOne (getFS s cfg.writeTo) filepath data with
    | (wfs, some e) => (setFS s cfg.writeTo wfs, some e)
    | (wfs, none) =>
      let s1 := setFS s cfg.writeTo wfs
      if saveLocal then
        match writeOne (getFS s1 cfg.localName) filepath data with
        | (lfs, r) => (setFS s1 cfg.localName lfs, r)
      else (s1, none)

/-- Observable transfer steps performed by `copy_from`. -/
inductive Event
  | copyToTmp (path : String)
  | moveTmpToLocal (path : String)
deriving DecidableEq, Repr

/-- Result of `copy_from`: the final state, the intermediate states after
each primitive mutation (for stating what concurrent readers of the local
filesystem could observe), the transfer events, and the error if any. -/
structure CopyResult where
  final : DAState
  states : List DAState
  events : List Event
  error : Option Err
deriving DecidableEq, Repr

/-- `DataAccess.copy_from`: check presence in the MultiFS, create the
directory locally and in a fresh `TempFS`, copy the file from the MultiFS
into the `TempFS`, then move it from the `TempFS` into the local
filesystem in one step. -/
def DataAccess.copy_from (cfg : StoreCfg) (s : DAState) (file_name : String)
    (from_dir : Option String) : CopyResult :=
  let fd := from_dir.getD ""
  let from_path := joinPath fd file_name
  match checkFileExists cfg s from_path true with
  | some e => ⟨s, [], [], some e⟩
  | none =>
    let s1 := setFS s cfg.localName ((getFS s cfg.localName).makedirs fd)
    let tmp1 := FS.empty.makedirs fd
    match storeRead cfg s1 from_path with
    | none => ⟨s1, [s1], [], some (.notFound from_path cfg.order)⟩
    | some c =>
      let tmp2 := tmp1.writeFile from_path c
      let s2 := setFS s1 cfg.localName
        ((getFS s1 cfg.localName).writeFile from_path (tmp2.read from_path).iget)
      ⟨s2, [s1, s1, s1, s2],
        [.copyToTmp from_path, .moveTmpToLocal from_path], none⟩

/-- Result of `get`: final state, transfer events of the `copy_from` it
may have triggered, and (content, local system path) on success. -/
structure GetResult where
  final : DAState
  events : List Event
  result : Except Err (Content × String)
deriving Repr

/-- The configured local directory (`server_setup.LOCAL_DIR`); its exact
value is configuration and does not matter to any property below. -/
def localRootDir : String := "/local"

/-- `local_fs.getsyspath`: the OS path of a file of the local filesystem. -/
def getsyspath (p : String) : String := localRootDir ++ "/" ++ p

/-- `DataAccess.get`: when the file is absent locally, run
`copy_from(basename, dirname)` first; then open the local copy and yield
it together with its local system path. -/
def DataAccess.get (cfg : StoreCfg) (s : DAState) (filepath : String) : GetResult :=
  if (getFS s cfg.localName).existsFile filepath then
    match (getFS s cfg.localName).read filepath with
    | some c => ⟨s, [], .ok (c, getsyspath filepath)⟩
    | none => ⟨s, [], .error (.notFound filepath [cfg.localName])⟩
  else
    let r := DataAccess.copy_from cfg s (basename filepath) (some (dirname filepath))
    match r.error with
    | some e => ⟨r.final, r.events, .error e⟩
    | none =>
      match (getFS r.final cfg.localName).read filepath with
      | some c => ⟨r.final, r.events, .ok (c, getsyspath filepath)⟩
      | none => ⟨r.final, r.events, .error (.notFound filepath [cfg.localName])⟩

/-- Glob matching on path characters (`*` and `?` wildcards), the model of
`fs.glob` pattern matching used by `remove`. -/
def globMatch : List Char → List Char → Bool
  | [], [] => true
  | [], _ :: _ => false
  | '*' :: ps, [] => globMatch ps []
  | '*' :: ps, c :: cs => globMatch ps (c :: cs) || globMatch ('*' :: ps) cs
  | '?' :: _, [] => false
  | '?' :: ps, _ :: cs => globMatch ps cs
  | p :: ps, c :: cs => p == c && globMatch ps cs
  | _ :: _, [] => false
termination_by ps cs => (ps.length, cs.length)

/-- `self.fs.glob(pattern).remove()`: delete every matching file of the
writable member of the MultiFS. -/
def FS.globRemove (f : FS) (pattern : String) : FS :=
  ⟨f.files.filter (fun kv => !globMatch pattern.toList kv.1.toList), f.dirs⟩

/-- `DataAccess.remove`: when `confirm` is set, ask interactively and
cancel (returning with no deletion) unless the lowercased answer is
exactly `y`; otherwise delete the files matching the glob. -/
def DataAccess.remove (cfg : StoreCfg) (s : DAState) (pattern : String)
    (confirm : Bool) (answer : String) : DAState :=
  if confirm && lowerString answer != "y" then s
  else setFS s cfg.writeTo ((getFS s cfg.writeTo).globRemove pattern)

/-- Symbolic digests.  `sha256 c` is the value of `fs.hash(path, "sha256")`
on a file with content `c`; `sha1Out c p` is the standard-output line of
the `sha1sum p` command on a file with content `c` (which embeds both the
sha1 digest of `c` and the path `p`).  Distinct constructors model the
fact that distinct algorithms (or the presence of the path in the
command's output) produce observably different values. -/
inductive Checksum
  | sha256 (content : Content)
  | sha1Out (content : Content) (path : String)
deriving DecidableEq, Repr

/-- The digest `DataAccess.checksum` computes: `self.fs.hash(path, "sha256")`. -/
def localDigest (c : Content) : Checksum := .sha256 c

/-- The value `push`'s remote command captures: `curr=$(sha1sum {original})`. -/
def sha1sumOutput (c : Content) (fullpath : String) : Checksum := .sha1Out c fullpath

/-- `DataAccess.checksum`: the sha256 hash of the file as resolved through
the MultiFS; missing files raise. -/
def DataAccess.checksum (cfg : StoreCfg) (s : DAState) (relativePath : String) :
    Except Err Checksum :=
  match storeRead cfg s relativePath with
  | none => .error (.notFound relativePath cfg.order)
  | some c => .ok (localDigest c)

/-- `SSHDataAccess.push`: fail fast if the backup path `rename + ".temp"`
already exists in the MultiFS; move the local file to that backup path on
the writable (ssh) member; then run the remote shell command, which under
an exclusive flock compares the caller-supplied checksum string against
the `sha1sum` output for the canonical file and, on equality, runs
`mv {updated} {original} -b` — backing up the previous canonical content
under `rename + "~"` and installing the staged content — and otherwise
echoes to stderr, which the caller surfaces as a conflict error. -/
def SSHDataAccess.push (cfg : StoreCfg) (s : DAState) (file_name : String)
    (chk : Checksum) (rename : String) : DAState × Option Err :=
  let backup := rename ++ ".temp"
  match checkFileExists cfg s backup false with
  | some e => (s, some e)
  | none =>
    match (getFS s cfg.localName).read file_name with
    | none => (s, some (.notFound file_name [cfg.localName]))
    | some staged =>
      let s1 := setFS s cfg.localName ((getFS s cfg.localName).removeFile file_name)
      let s2 := setFS s1 cfg.writeTo ((getFS s1 cfg.writeTo).writeFile backup staged)
      let sshfs := getFS s2 cfg.writeTo
      match sshfs.read rename with
      | some currContent =>
        if chk = sha1sumOutput currContent (joinPath cfg.root rename) then
          let f1 := sshfs.writeFile (rename ++ "~") currContent
          let f2 := f1.removeFile rename
          let f3 := f2.writeFile rename staged
          let f4 := f3.removeFile backup
          (setFS s2 cfg.writeTo f4, none)
        else (s2, some .conflict)
      | none => (s2, some .conflict)

/-- The `SSHDataAccess` wiring: MultiFS members `ssh_fs` (priority 3,
writable), `profile_fs` (priority 2), `scenario_fs` (priority 1); the
local filesystem is not a MultiFS member. -/
def sshCfg : StoreCfg :=
  ⟨["ssh_fs", "profile_fs", "scenario_fs"], "ssh_fs", "local_fs", "data"⟩

/-- A state with one staged local edit and one remote canonical file. -/
def pushReadyState : DAState :=
  [("local_fs", FS.mk [("staged.csv", "new")] []),
   ("ssh_fs", FS.mk [("canonical.csv", "old")] [])]

/-- A state whose local and remote copies hold identical bytes. -/
def samePayloadState : DAState :=
  [("local_fs", FS.mk [("x.csv", "payload")] []),
   ("ssh_fs", FS.mk [("x.csv", "payload")] [])]

/-- A state whose local cache already holds a (stale) copy of a file that
also exists remotely. -/
def cachedState : DAState :=
  [("local_fs", FS.mk [("dir/x.csv", "old")] ["dir"]),
   ("ssh_fs", FS.mk [("dir/x.csv", "remote")] ["dir"])]

/-- A state with a file present only in the local cache. -/
def localOnlyState : DAState :=
  [("local_fs", FS.mk [("dir/x.csv", "old")] ["dir"]),
   ("ssh_fs", FS.mk [] [])]

theorem alistGet_set_self {β : Type} (l : List (String × β)) (k : String) (v : β) :
    alistGet (alistSet l k v) k = some v := by
  induction l with
  | nil => simp [alistSet, alistGet]
  | cons hd tl ih =>
    obtain ⟨k', w⟩ := hd
    by_cases h : k' = k
    · simp [alistSet, h, alistGet]
    · simp [alistSet, h, alistGet, ih]

theorem alistGet_set_ne {β : Type} (l : List (String × β)) (k m : String) (v : β)
    (h : m ≠ k) : alistGet (alistSet l k v) m = alistGet l m := by
  induction l with
  | nil => simp [alistSet, alistGet, Ne.symm h]
  | cons hd tl ih =>
    obtain ⟨k', w⟩ := hd
    by_cases hk : k' = k
    · subst hk
      simp [alistSet, alistGet, Ne.symm h]
    · by_cases hm : k' = m <;> simp [alistSet, alistGet, hk, hm, ih, h]

theorem alistGet_del_self {β : Type} (l : List (String × β)) (k : String) :
    alistGet (alistDel l k) k = none := by
  induction l with
  | nil => simp [alistDel, alistGet]
  | cons hd tl ih =>
    obtain ⟨k', w⟩ := hd
    by_cases h : k' = k <;> simp [alistDel, alistGet, h, ih]

theorem alistGet_del_ne {β : Type} (l : List (String × β)) (k m : String)
    (h : m ≠ k) : alistGet (alistDel l k) m = alistGet l m := by
  induction l with
  | nil => simp [alistDel, alistGet]
  | cons hd tl ih =>
    obtain ⟨k', w⟩ := hd
    by_cases hk : k' = k
    · subst hk
      simp [alistDel, alistGet, Ne.symm h, ih]
    · by_cases hm : k' = m <;> simp [alistDel, alistGet, hk, hm, ih, h]

theorem getFS_set_self (s : DAState) (n : String) (f : FS) :
    getFS (setFS s n f) n = f := by
  simp [getFS, setFS, alistGet_set_self]

theorem getFS_set_ne (s : DAState) (n m : String) (f : FS) (h : m ≠ n) :
    getFS (setFS s n f) m = getFS s m := by
  simp [getFS, setFS, alistGet_set_ne _ _ _ _ h]

theorem FS.read_writeFile_self (f : FS) (p : String) (c : Content) :
    (f.writeFile p c).read p = some c := alistGet_set_self f.files p c

theorem FS.read_writeFile_ne (f : FS) (p q : String) (c : Content) (h : q ≠ p) :
    (f.writeFile p c).read q = f.read q := alistGet_set_ne f.files p q c h

theorem FS.read_removeFile_self (f : FS) (p : String) :
    (f.removeFile p).read p = none := alistGet_del_self f.files p

theorem FS.read_removeFile_ne (f : FS) (p q : String) (h : q ≠ p) :
    (f.removeFile p).read q = f.read q := alistGet_del_ne f.files p q h

theorem FS.read_makedirs (f : FS) (d p : String) :
    (f.makedirs d).read p = f.read p := rfl

theorem string_ne_append_right {a x : String} (hx : 0 < x.length) :
    a ≠ a ++ x := by
  intro h
  have hl := congrArg String.length h
  rw [String.length_append] at hl
  omega

theorem string_append_ne_append {a x y : String} (h : x.length ≠ y.length) :
    a ++ x ≠ a ++ y := by
  intro hxy
  have hl := congrArg String.length hxy
  rw [String.length_append, String.length_append] at hl
  omega

theorem which_eq_none_iff (cfg : StoreCfg) (s : DAState) (p : String) :
    which cfg s p = none ↔
      ∀ n ∈ cfg.order, (getFS s n).existsFile p = false := by
  simp [which, List.find?_eq_none]

theorem which_isSome_of_mem (cfg : StoreCfg) (s : DAState) {n : String}
    (p : String) (hn : n ∈ cfg.order) (h : (getFS s n).existsFile p = true) :
    (which cfg s p).isSome := by
  rw [which, List.find?_isSome]
  exact ⟨n, hn, h⟩

theorem findSome_read_eq_none_iff (l : List String) (s : DAState) (p : String) :
    l.findSome? (fun n => (getFS s n).read p) = none ↔
      l.find? (fun n => (getFS s n).existsFile p) = none := by
  induction l with
  | nil => simp
  | cons hd tl ih =>
    rw [List.findSome?_cons, List.find?_cons]
    rcases hr : (getFS s hd).read p with _ | c
    · have : (getFS s hd).existsFile p = false := by
        simp [FS.existsFile, hr]
      simpa [this] using ih
    · have : (getFS s hd).existsFile p = true := by
        simp [FS.existsFile, hr]
      simp [this, hr]

theorem storeRead_eq_none_iff (cfg : StoreCfg) (s : DAState) (p : String) :
    storeRead cfg s p = none ↔ which cfg s p = none :=
  findSome_read_eq_none_iff cfg.order s p

theorem read_set_makedirs (s : DAState) (n d : String) (m p : String) :
    (getFS (setFS s n ((getFS s n).makedirs d)) m).read p = (getFS s m).read p := by
  by_cases h : m = n
  · subst h
    rw [getFS_set_self, FS.read_makedirs]
  · rw [getFS_set_ne _ _ _ _ h]

theorem storeRead_set_makedirs (cfg : StoreCfg) (s : DAState) (n d : String)
    (p : String) :
    storeRead cfg (setFS s n ((getFS s n).makedirs d)) p = storeRead cfg s p := by
  unfold storeRead
  congr 1
  funext m
  exact read_set_makedirs s n d m p

theorem FS.mem_makedirs_dirs (f : FS) (d : String) : d ∈ (f.makedirs d).dirs := by
  unfold FS.makedirs
  by_cases h : d ∈ f.dirs <;> simp [h]

theorem FS.dirs_writeFile (f : FS) (p : String) (c : Content) :
    (f.writeFile p c).dirs = f.dirs := rfl

/-- C4: for every path already present in at least one backend of the
Priority Store, `write` raises an already-exists error, and the state —
hence the content of the path in every backend, the Local one included —
is unchanged by the call. -/
theorem c4_write_create_only (cfg : StoreCfg) (s : DAState)
    (filepath data : String) (saveLocal : Bool) (loc : String)
    (h : which cfg s filepath = some loc) :
    DataAccess.write cfg s filepath data saveLocal =
      (s, some (.alreadyExists filepath loc)) := by
  have hc : checkFileExists cfg s filepath false =
      some (.alreadyExists filepath loc) := by
    simp [checkFileExists, h]
  unfold DataAccess.write
  rw [hc]

theorem c4_write_create_only_witness :
    which sshCfg cachedState "dir/x.csv" = some "ssh_fs" ∧
    DataAccess.write sshCfg cachedState "dir/x.csv" "payload" true =
      (cachedState, some (.alreadyExists "dir/x.csv" "ssh_fs")) :=
  ⟨by decide,
   c4_write_create_only sshCfg cachedState "dir/x.csv" "payload" true "ssh_fs"
     (by decide)⟩

/-- C7: `remove` with `confirm` set and an interactive answer whose
lowercasing is not exactly `y` deletes nothing: the state of every backend
is unchanged. -/
theorem c7_remove_confirm_gate (cfg : StoreCfg) (s : DAState)
    (pattern answer : String) (h : lowerString answer ≠ "y") :
    DataAccess.remove cfg s pattern true answer = s := by
  unfold DataAccess.remove
  simp [h]

theorem c7_remove_confirm_gate_witness :
    lowerString "N" ≠ "y" ∧
    DataAccess.remove sshCfg cachedState "dir/*" true "N" = cachedState :=
  ⟨by decide, c7_remove_confirm_gate sshCfg cachedState "dir/*" "N" (by decide)⟩

/-- C9: for an absent path with an extension other than pkl/csv/mat,
`write` raises the unknown-extension error only after the parent
directory has been created and the destination opened for writing, so an
empty file is left behind at the path in the writable backend of the
store. -/
theorem c9_write_unknown_extension (cfg : StoreCfg) (s : DAState)
    (filepath data : String)
    (habs : which cfg s filepath = none)
    (h1 : extOf filepath ≠ "pkl") (h2 : extOf filepath ≠ "csv")
    (h3 : extOf filepath ≠ "mat") :
    ∃ s', DataAccess.write cfg s filepath data true =
        (s', some (.unknownExtension (extOf filepath))) ∧
      (getFS s' cfg.writeTo).read filepath = some "" ∧
      dirname filepath ∈ (getFS s' cfg.writeTo).dirs := by
  have hc : checkFileExists cfg s filepath false = none := by
    simp [checkFileExists, habs]
  have hw : writeOne (getFS s cfg.writeTo) filepath data =
      (((getFS s cfg.writeTo).makedirs (dirname filepath)).writeFile filepath "",
       some (.unknownExtension (extOf filepath))) := by
    simp [writeOne, callbackSerialize, h1, h2, h3]
  refine ⟨setFS s cfg.writeTo
    (((getFS s cfg.writeTo).makedirs (dirname filepath)).writeFile filepath ""),
    ?_, ?_, ?_⟩
  · unfold DataAccess.write
    rw [hc, hw]
  · rw [getFS_set_self, FS.read_writeFile_self]
  · rw [getFS_set_self, FS.dirs_writeFile]
    exact FS.mem_makedirs_dirs _ _

theorem c9_write_unknown_extension_witness :
    which sshCfg cachedState "dir/y.xyz" = none ∧
    (∃ s', DataAccess.write sshCfg cachedState "dir/y.xyz" "d" true =
        (s', some (.unknownExtension (extOf "dir/y.xyz"))) ∧
      (getFS s' sshCfg.writeTo).read "dir/y.xyz" = some "" ∧
      dirname "dir/y.xyz" ∈ (getFS s' sshCfg.writeTo).dirs) :=
  ⟨by decide,
   c9_write_unknown_extension sshCfg cachedState "dir/y.xyz" "d" (by decide)
     (by decide) (by decide) (by decide)⟩

/-- C10: the create-only existence check of `write` consults only the
MultiFS, not the local filesystem: for a path present only in the local
cache, `write` never raises already-exists, and (for a supported
extension, here csv) with `save_local` set it overwrites the local copy
with the freshly serialized data. -/
theorem c10_write_ignores_local_cache (cfg : StoreCfg) (s : DAState)
    (filepath data c : String)
    (hln : cfg.localName ≠ cfg.writeTo)
    (hlocal : (getFS s cfg.localName).read filepath = some c)
    (habs : which cfg s filepath = none) :
    (∀ loc, (DataAccess.write cfg s filepath data true).2 ≠
      some (.alreadyExists filepath loc)) ∧
    (extOf filepath = "csv" →
      (getFS (DataAccess.write cfg s filepath data true).1 cfg.localName).read
        filepath = some ("csv:" ++ data)) := by
  have hc : checkFileExists cfg s filepath false = none := by
    simp [checkFileExists, habs]
  rcases hcb : callbackSerialize filepath data with e | cc
  · have hw : writeOne (getFS s cfg.writeTo) filepath data =
        (((getFS s cfg.writeTo).makedirs (dirname filepath)).writeFile filepath "",
         some e) := by
      simp [writeOne, hcb]
    have hext : extOf filepath ≠ "csv" := by
      intro hx
      simp [callbackSerialize, hx] at hcb
    constructor
    · intro loc
      unfold DataAccess.write
      rw [hc, hw]
      simp only [ne_eq, Option.some.injEq]
      intro hcontr
      rcases hcb' : callbackSerialize filepath data with e' | cc'
      · rw [hcb] at hcb'
        cases hcb'
        unfold callbackSerialize at hcb
        by_cases hp : extOf filepath = "pkl" <;>
          by_cases hcs : extOf filepath = "csv" <;>
            by_cases hm : extOf filepath = "mat" <;>
              simp [hp, hcs, hm] at hcb <;> simp [← hcb] at hcontr
      · rw [hcb] at hcb'
        cases hcb'
    · intro hx
      exact absurd hx hext
  · have hw : writeOne (getFS s cfg.writeTo) filepath data =
        ((((getFS s cfg.writeTo).makedirs (dirname filepath)).writeFile filepath
          "").writeFile filepath cc, none) := by
      simp [writeOne, hcb]
    have hwl : writeOne (getFS s cfg.localName) filepath data =
        ((((getFS s cfg.localName).makedirs (dirname filepath)).writeFile filepath
          "").writeFile filepath cc, none) := by
      simp [writeOne, hcb]
    have hres : DataAccess.write cfg s filepath data true =
        (setFS (setFS s cfg.writeTo
            ((((getFS s cfg.writeTo).makedirs (dirname filepath)).writeFile
              filepath "").writeFile filepath cc)) cfg.localName
          ((((getFS s cfg.localName).makedirs (dirname filepath)).writeFile
            filepath "").writeFile filepath cc), none) := by
      unfold DataAccess.write
      rw [hc, hw]
      simp only [getFS_set_ne _ _ _ _ hln, hwl, if_true]
    constructor
    · intro loc
      rw [hres]
      simp
    · intro hx
      rw [hres]
      simp only
      rw [getFS_set_self, FS.read_writeFile_self]
      have hcc : cc = "csv:" ++ data := by
        unfold callbackSerialize at hcb
        simp [hx] at hcb
        exact hcb.symm
      rw [hcc]

theorem c10_write_ignores_local_cache_witness :
    (getFS localOnlyState sshCfg.localName).read "dir/x.csv" = some "old" ∧
    which sshCfg localOnlyState "dir/x.csv" = none ∧
    ((∀ loc, (DataAccess.write sshCfg localOnlyState "dir/x.csv" "d" true).2 ≠
        some (.alreadyExists "dir/x.csv" loc)) ∧
      (extOf "dir/x.csv" = "csv" →
        (getFS (DataAccess.write sshCfg localOnlyState "dir/x.csv" "d" true).1
          sshCfg.localName).read "dir/x.csv" = some ("csv:" ++ "d"))) :=
  ⟨by decide, by decide,
   c10_write_ignores_local_cache sshCfg localOnlyState "dir/x.csv" "d" "old"
     (by decide) (by decide) (by decide)⟩

/-- C5: `copy_from` streams the file into a fresh staging filesystem and
only then installs it into the local filesystem by a single move: every
intermediate state a concurrent reader of the local filesystem could
observe holds, at the final local path, either the original local content
or the complete source content, never anything partial; and when the file
is absent from every backend the call raises not-found and leaves the
state untouched. -/
theorem c5_copy_from_staging (cfg : StoreCfg) (s : DAState)
    (file_name : String) (from_dir : Option String) (from_path : String)
    (hfp : from_path = joinPath (from_dir.getD "") file_name) :
    (which cfg s from_path = none →
      DataAccess.copy_from cfg s file_name from_dir =
        ⟨s, [], [], some (.notFound from_path cfg.order)⟩) ∧
    (∀ c, storeRead cfg s from_path = some c →
      (DataAccess.copy_from cfg s file_name from_dir).error = none ∧
      (getFS (DataAccess.copy_from cfg s file_name from_dir).final
        cfg.localName).read from_path = some c ∧
      ∀ st ∈ (DataAccess.copy_from cfg s file_name from_dir).states,
        (getFS st cfg.localName).read from_path =
            (getFS s cfg.localName).read from_path ∨
          (getFS st cfg.localName).read from_path = some c) := by
  subst hfp
  constructor
  · intro hwhich
    have hc : checkFileExists cfg s (joinPath (from_dir.getD "") file_name) true =
        some (.notFound (joinPath (from_dir.getD "") file_name) cfg.order) := by
      simp [checkFileExists, hwhich]
    unfold DataAccess.copy_from
    simp only [hc]
  · intro c hread
    rcases hW : which cfg s (joinPath (from_dir.getD "") file_name) with _ | loc
    · rw [← storeRead_eq_none_iff] at hW
      rw [hW] at hread
      cases hread
    · have hc : checkFileExists cfg s (joinPath (from_dir.getD "") file_name)
          true = none := by
        simp [checkFileExists, hW]
      have hread1 : storeRead cfg
          (setFS s cfg.localName ((getFS s cfg.localName).makedirs
            (from_dir.getD ""))) (joinPath (from_dir.getD "") file_name) = some c :=
        (storeRead_set_makedirs cfg s cfg.localName (from_dir.getD "")
          (joinPath (from_dir.getD "") file_name)).trans hread
      have hres : DataAccess.copy_from cfg s file_name from_dir =
          ⟨setFS (setFS s cfg.localName ((getFS s cfg.localName).makedirs
              (from_dir.getD ""))) cfg.localName
            ((getFS (setFS s cfg.localName ((getFS s cfg.localName).makedirs
              (from_dir.getD ""))) cfg.localName).writeFile
              (joinPath (from_dir.getD "") file_name) c),
          [setFS s cfg.localName ((getFS s cfg.localName).makedirs
              (from_dir.getD "")),
            setFS s cfg.localName ((getFS s cfg.localName).makedirs
              (from_dir.getD "")),
            setFS s cfg.localName ((getFS s cfg.localName).makedirs
              (from_dir.getD "")),
            setFS (setFS s cfg.localName ((getFS s cfg.localName).makedirs
              (from_dir.getD ""))) cfg.localName
              ((getFS (setFS s cfg.localName ((getFS s cfg.localName).makedirs
                (from_dir.getD ""))) cfg.localName).writeFile
                (joinPath (from_dir.getD "") file_name) c)],
          [.copyToTmp (joinPath (from_dir.getD "") file_name),
            .moveTmpToLocal (joinPath (from_dir.getD "") file_name)], none⟩ := by
        unfold DataAccess.copy_from
        simp only [hc, hread1, FS.read_writeFile_self, Option.iget_some]
      rw [hres]
      refine ⟨rfl, ?_, ?_⟩
      · rw [getFS_set_self, FS.read_writeFile_self]
      · intro st hst
        simp only [List.mem_cons, List.not_mem_nil, or_false] at hst
        rcases hst with h1 | h1 | h1 | h1 <;> subst h1
        · exact Or.inl (read_set_makedirs s cfg.localName (from_dir.getD "") _ _)
        · exact Or.inl (read_set_makedirs s cfg.localName (from_dir.getD "") _ _)
        · exact Or.inl (read_set_makedirs s cfg.localName (from_dir.getD "") _ _)
        · exact Or.inr (by rw [getFS_set_self, FS.read_writeFile_self])

theorem c5_copy_from_staging_witness :
    "dir/x.csv" = joinPath ((some "dir").getD "") "x.csv" ∧
    storeRead sshCfg cachedState "dir/x.csv" = some "remote" ∧
    ((DataAccess.copy_from sshCfg cachedState "x.csv" (some "dir")).error = none ∧
      (getFS (DataAccess.copy_from sshCfg cachedState "x.csv" (some "dir")).final
        sshCfg.localName).read "dir/x.csv" = some "remote" ∧
      ∀ st ∈ (DataAccess.copy_from sshCfg cachedState "x.csv" (some "dir")).states,
        (getFS st sshCfg.localName).read "dir/x.csv" =
            (getFS cachedState sshCfg.localName).read "dir/x.csv" ∨
          (getFS st sshCfg.localName).read "dir/x.csv" = some "remote") :=
  ⟨by decide, by decide,
   (c5_copy_from_staging sshCfg cachedState "x.csv" (some "dir") "dir/x.csv"
     (by decide)).2 "remote" (by decide)⟩

/-- C6 counterexample: with `dir/x.csv` already present in the local
filesystem after a first `copy_from`, a second `copy_from` still performs
a remote transfer (a copy into the staging filesystem), contrary to the
claim that the second call performs no remote transfer. -/
theorem c6_counterexample :
    (getFS (DataAccess.copy_from sshCfg cachedState "x.csv" (some "dir")).final
      "local_fs").existsFile "dir/x.csv" = true ∧
    Event.copyToTmp "dir/x.csv" ∈
      (DataAccess.copy_from sshCfg
        (DataAccess.copy_from sshCfg cachedState "x.csv" (some "dir")).final
        "x.csv" (some "dir")).events := by decide

/-- C6 (amended): the idempotence holds at `get`, which consults the local
filesystem first: for a file already present locally, `get` performs no
transfer and returns the local system path, so a second call transfers
nothing, changes nothing, and returns the same local path as the first. -/
theorem c6_get_idempotent (cfg : StoreCfg) (s : DAState) (filepath c : String)
    (h : (getFS s cfg.localName).read filepath = some c) :
    DataAccess.get cfg s filepath = ⟨s, [], .ok (c, getsyspath filepath)⟩ ∧
    DataAccess.get cfg (DataAccess.get cfg s filepath).final filepath =
      ⟨s, [], .ok (c, getsyspath filepath)⟩ := by
  have he : (getFS s cfg.localName).existsFile filepath = true := by
    simp [FS.existsFile, h]
  have h1 : DataAccess.get cfg s filepath = ⟨s, [], .ok (c, getsyspath filepath)⟩ := by
    unfold DataAccess.get
    rw [he]
    simp only [if_true]
    rw [h]
  refine ⟨h1, ?_⟩
  rw [h1]
  exact h1

theorem c6_get_idempotent_witness :
    (getFS cachedState sshCfg.localName).read "dir/x.csv" = some "old" ∧
    (DataAccess.get sshCfg cachedState "dir/x.csv" =
        ⟨cachedState, [], .ok ("old", getsyspath "dir/x.csv")⟩ ∧
      DataAccess.get sshCfg
          (DataAccess.get sshCfg cachedState "dir/x.csv").final "dir/x.csv" =
        ⟨cachedState, [], .ok ("old", getsyspath "dir/x.csv")⟩) :=
  ⟨by decide, c6_get_idempotent sshCfg cachedState "dir/x.csv" "old" (by decide)⟩

/-- C1: a push whose supplied checksum equals the checksum the remote
side computes for the current canonical file succeeds: afterwards the
canonical file holds exactly the pushed bytes — so its checksum equals
the checksum of the pushed content — and the prior canonical version is
retained under the backup name `rename + "~"` produced by `mv -b`. -/
theorem c1_push_success (cfg : StoreCfg) (s : DAState)
    (file_name rename staged prior : String)
    (hln : cfg.localName ≠ cfg.writeTo)
    (hnb : which cfg s (rename ++ ".temp") = none)
    (hlocal : (getFS s cfg.localName).read file_name = some staged)
    (hremote : (getFS s cfg.writeTo).read rename = some prior) :
    ∃ s', SSHDataAccess.push cfg s file_name
        (sha1sumOutput prior (joinPath cfg.root rename)) rename = (s', none) ∧
      (getFS s' cfg.writeTo).read rename = some staged ∧
      (getFS s' cfg.writeTo).read (rename ++ "~") = some prior ∧
      ((getFS s' cfg.writeTo).read rename).map localDigest =
        some (localDigest staged) := by
  have hc : checkFileExists cfg s (rename ++ ".temp") false = none := by
    simp [checkFileExists, hnb]
  have hne1 : rename ≠ rename ++ ".temp" :=
    string_ne_append_right (by decide)
  have hne2 : rename ++ "~" ≠ rename ++ ".temp" :=
    string_append_ne_append (by decide)
  have hne3 : rename ++ "~" ≠ rename :=
    Ne.symm (string_ne_append_right (by decide))
  unfold SSHDataAccess.push
  simp only [hc, hlocal, getFS_set_self, FS.read_writeFile_ne _ _ _ _ hne1,
    getFS_set_ne _ _ _ _ (Ne.symm hln), hremote, if_true]
  refine ⟨_, rfl, ?_, ?_, ?_⟩
  · rw [getFS_set_self, FS.read_removeFile_ne _ _ _ hne1,
      FS.read_writeFile_self]
  · rw [getFS_set_self, FS.read_removeFile_ne _ _ _ hne2,
      FS.read_writeFile_ne _ _ _ _ hne3, FS.read_removeFile_ne _ _ _ hne3,
      FS.read_writeFile_self]
  · rw [getFS_set_self, FS.read_removeFile_ne _ _ _ hne1,
      FS.read_writeFile_self]
    rfl

theorem c1_push_success_witness :
    which sshCfg pushReadyState ("canonical.csv" ++ ".temp") = none ∧
    (getFS pushReadyState sshCfg.localName).read "staged.csv" = some "new" ∧
    (getFS pushReadyState sshCfg.writeTo).read "canonical.csv" = some "old" ∧
    (∃ s', SSHDataAccess.push sshCfg pushReadyState "staged.csv"
        (sha1sumOutput "old" (joinPath sshCfg.root "canonical.csv"))
        "canonical.csv" = (s', none) ∧
      (getFS s' sshCfg.writeTo).read "canonical.csv" = some "new" ∧
      (getFS s' sshCfg.writeTo).read ("canonical.csv" ++ "~") = some "old" ∧
      ((getFS s' sshCfg.writeTo).read "canonical.csv").map localDigest =
        some (localDigest "new")) :=
  ⟨by decide, by decide, by decide,
   c1_push_success sshCfg pushReadyState "staged.csv" "canonical.csv" "new"
     "old" (by decide) (by decide) (by decide) (by decide)⟩

/-- C3: when the remote canonical file's checksum no longer matches the
caller-supplied checksum at the compare step, `push` raises a conflict
error and the remote canonical file's bytes are identical to their
pre-push state. -/
theorem c3_push_conflict (cfg : StoreCfg) (s : DAState)
    (file_name rename staged currContent : String) (chk : Checksum)
    (hln : cfg.localName ≠ cfg.writeTo)
    (hnb : which cfg s (rename ++ ".temp") = none)
    (hlocal : (getFS s cfg.localName).read file_name = some staged)
    (hremote : (getFS s cfg.writeTo).read rename = some currContent)
    (hmix : chk ≠ sha1sumOutput currContent (joinPath cfg.root rename)) :
    ∃ s', SSHDataAccess.push cfg s file_name chk rename =
        (s', some .conflict) ∧
      (getFS s' cfg.writeTo).read rename = some currContent := by
  have hc : checkFileExists cfg s (rename ++ ".temp") false = none := by
    simp [checkFileExists, hnb]
  have hne1 : rename ≠ rename ++ ".temp" := string_ne_append_right (by decide)
  unfold SSHDataAccess.push
  simp only [hc, hlocal, getFS_set_self, FS.read_writeFile_ne _ _ _ _ hne1,
    getFS_set_ne _ _ _ _ (Ne.symm hln), hremote, if_neg hmix]
  refine ⟨_, rfl, ?_⟩
  simp only [getFS_set_self, FS.read_writeFile_ne _ _ _ _ hne1,
    getFS_set_ne _ _ _ _ (Ne.symm hln), hremote]

theorem c3_push_conflict_witness :
    which sshCfg pushReadyState ("canonical.csv" ++ ".temp") = none ∧
    (getFS pushReadyState sshCfg.localName).read "staged.csv" = some "new" ∧
    (getFS pushReadyState sshCfg.writeTo).read "canonical.csv" = some "old" ∧
    sha1sumOutput "older" (joinPath sshCfg.root "canonical.csv") ≠
      sha1sumOutput "old" (joinPath sshCfg.root "canonical.csv") ∧
    (∃ s', SSHDataAccess.push sshCfg pushReadyState "staged.csv"
        (sha1sumOutput "older" (joinPath sshCfg.root "canonical.csv"))
        "canonical.csv" = (s', some .conflict) ∧
      (getFS s' sshCfg.writeTo).read "canonical.csv" = some "old") :=
  ⟨by decide, by decide, by decide, by decide,
   c3_push_conflict sshCfg pushReadyState "staged.csv" "canonical.csv" "new"
     "old" (sha1sumOutput "older" (joinPath sshCfg.root "canonical.csv"))
     (by decide) (by decide) (by decide) (by decide) (by decide)⟩

/-- C8: `push` moves the local file to the remote backup path
`rename + ".temp"` before the checksum gate runs, so after a conflicting
push the file is gone from the local root and sits at the backup path on
the remote store; an immediate retry of the same push raises an
already-exists error on the backup path, and only once the leftover
backup is removed does the existence check pass again. -/
theorem c8_push_stages_before_gate (cfg : StoreCfg) (s : DAState)
    (file_name rename staged currContent : String) (chk : Checksum)
    (hwo : cfg.writeTo ∈ cfg.order)
    (hlno : cfg.localName ∉ cfg.order)
    (hnb : which cfg s (rename ++ ".temp") = none)
    (hlocal : (getFS s cfg.localName).read file_name = some staged)
    (hremote : (getFS s cfg.writeTo).read rename = some currContent)
    (hmix : chk ≠ sha1sumOutput currContent (joinPath cfg.root rename)) :
    ∃ s', SSHDataAccess.push cfg s file_name chk rename =
        (s', some .conflict) ∧
      (getFS s' cfg.localName).read file_name = none ∧
      (getFS s' cfg.writeTo).read (rename ++ ".temp") = some staged ∧
      (∃ loc, SSHDataAccess.push cfg s' file_name chk rename =
        (s', some (.alreadyExists (rename ++ ".temp") loc))) ∧
      which cfg (setFS s' cfg.writeTo
          ((getFS s' cfg.writeTo).removeFile (rename ++ ".temp")))
        (rename ++ ".temp") = none := by
  have hln : cfg.localName ≠ cfg.writeTo := by
    intro h
    exact hlno (h ▸ hwo)
  have hc : checkFileExists cfg s (rename ++ ".temp") false = none := by
    simp [checkFileExists, hnb]
  have hne1 : rename ≠ rename ++ ".temp" := string_ne_append_right (by decide)
  unfold SSHDataAccess.push
  simp only [hc, hlocal, getFS_set_self, FS.read_writeFile_ne _ _ _ _ hne1,
    getFS_set_ne _ _ _ _ (Ne.symm hln), hremote, if_neg hmix]
  refine ⟨_, rfl, ?_, ?_, ?_, ?_⟩
  · rw [getFS_set_ne _ _ _ _ hln, getFS_set_self, FS.read_removeFile_self]
  · rw [getFS_set_self, FS.read_writeFile_self]
  · have hex : (getFS (setFS (setFS s cfg.localName
        ((getFS s cfg.localName).removeFile file_name)) cfg.writeTo
        ((getFS s cfg.writeTo).writeFile (rename ++ ".temp") staged))
        cfg.writeTo).existsFile (rename ++ ".temp") = true := by
      rw [FS.existsFile, getFS_set_self, FS.read_writeFile_self]
      rfl
    have hsome := which_isSome_of_mem cfg _ (rename ++ ".temp") hwo hex
    rcases Option.isSome_iff_exists.mp hsome with ⟨loc, hloc⟩
    refine ⟨loc, ?_⟩
    have hc2 : checkFileExists cfg (setFS (setFS s cfg.localName
        ((getFS s cfg.localName).removeFile file_name)) cfg.writeTo
        ((getFS s cfg.writeTo).writeFile (rename ++ ".temp") staged))
        (rename ++ ".temp") false =
        some (.alreadyExists (rename ++ ".temp") loc) := by
      simp [checkFileExists, hloc]
    simp only [hc2]
  · rw [which_eq_none_iff]
    intro n hn
    by_cases hnw : n = cfg.writeTo
    · subst hnw
      rw [FS.existsFile, getFS_set_self, FS.read_removeFile_self]
      rfl
    · have hnl : n ≠ cfg.localName := by
        intro h
        exact hlno (h ▸ hn)
      rw [FS.existsFile, getFS_set_ne _ _ _ _ hnw, getFS_set_ne _ _ _ _ hnw,
        getFS_set_ne _ _ _ _ hnl]
      have := (which_eq_none_iff cfg s (rename ++ ".temp")).mp hnb n hn
      rw [FS.existsFile] at this
      exact this

theorem c8_push_stages_before_gate_witness :
    sshCfg.writeTo ∈ sshCfg.order ∧
    sshCfg.localName ∉ sshCfg.order ∧
    which sshCfg pushReadyState ("canonical.csv" ++ ".temp") = none ∧
    (getFS pushReadyState sshCfg.localName).read "staged.csv" = some "new" ∧
    (getFS pushReadyState sshCfg.writeTo).read "canonical.csv" = some "old" ∧
    (∃ s', SSHDataAccess.push sshCfg pushReadyState "staged.csv"
        (Checksum.sha256 "old") "canonical.csv" = (s', some .conflict) ∧
      (getFS s' sshCfg.localName).read "staged.csv" = none ∧
      (getFS s' sshCfg.writeTo).read ("canonical.csv" ++ ".temp") = some "new" ∧
      (∃ loc, SSHDataAccess.push sshCfg s' "staged.csv"
        (Checksum.sha256 "old") "canonical.csv" =
        (s', some (.alreadyExists ("canonical.csv" ++ ".temp") loc))) ∧
      which sshCfg (setFS s' sshCfg.writeTo
          ((getFS s' sshCfg.writeTo).removeFile ("canonical.csv" ++ ".temp")))
        ("canonical.csv" ++ ".temp") = none) :=
  ⟨by decide, by decide, by decide, by decide, by decide,
   c8_push_stages_before_gate sshCfg pushReadyState "staged.csv"
     "canonical.csv" "new" "old" (Checksum.sha256 "old") (by decide)
     (by decide) (by decide) (by decide) (by decide) (by decide)⟩

/-- C2 (code bug): the digest algorithm is not pinned end-to-end.
`DataAccess.checksum` computes a sha256 digest
(`self.fs.hash(relative_path, "sha256")`), while the remote command of
`push` compares the caller-supplied value against the output of
`sha1sum` — a different algorithm, whose command output moreover embeds
the absolute file path.  Consequently, pushing a file whose remote copy
holds exactly the same bytes, using the checksum that `checksum()`
produced for it, still fails the gate with a conflict. -/
theorem c2_digest_algorithm_mismatch :
    DataAccess.checksum sshCfg samePayloadState "x.csv" =
      .ok (Checksum.sha256 "payload") ∧
    (getFS samePayloadState "ssh_fs").read "x.csv" = some "payload" ∧
    Checksum.sha256 "payload" ≠
      sha1sumOutput "payload" (joinPath sshCfg.root "x.csv") ∧
    SSHDataAccess.push sshCfg samePayloadState "x.csv"
        (Checksum.sha256 "payload") "x.csv" =
      ([("local_fs", FS.mk [] []),
        ("ssh_fs", FS.mk [("x.csv", "payload"), ("x.csv.temp", "payload")] [])],
       some .conflict) :=
  ⟨by rfl, by decide, by decide, by decide⟩

end PowerSimData
